import Mathlib

/-!
Verification of the MAp experiment controller (`py_MAp_2_experiment.ipynb`).

The notebook defines two functions: `simulateTransfer`, the per-replicate
serial-transfer protocol, and `runExperiments`, the campaign controller that
repeats the protocol until enough informative replicates are collected,
memoising results on the filesystem.  The Plasmid/Bacteria/Population classes
are imported from the external `MAp` module, which is not part of this
repository; they are modelled from the specification as an explicit state type
plus a deterministic oracle (`MapEnv`) standing for the stochastic calls.

Python strings (file names) are modelled as `List Char`; the filesystem is an
association list from file name to content.
-/

set_option maxHeartbeats 1000000

/-- Modelled from the spec: a plasmid carries an irreversible mutation flag.
The `Plasmid` class lives in the imported MAp module, which is missing from
this repository's sources; only the mutation state is relevant here. -/
structure Plasmid where
  mutated : Bool
deriving DecidableEq, Repr

/-- Modelled from the spec: the per-bacterium parameter record passed to the
`Bacteria` constructor.  The mutation rate is kept as its textual token
(`str(mut_rate)` in Python), since at this layer it only flows into file
names and into the opaque stochastic oracle. -/
structure BactParams where
  mutTok : List Char
  max_plasmids : Nat
deriving DecidableEq, Repr

/-- Modelled from the spec: a bacterium owns an ordered collection of
plasmids.  The `Bacteria` class lives in the imported MAp module, missing
from this repository's sources. -/
structure Bacteria where
  id : String
  parameters : BactParams
  plasmids : List Plasmid
deriving DecidableEq, Repr

instance : Inhabited Bacteria := ⟨⟨"", ⟨[], 0⟩, []⟩⟩

/-- Modelled from the spec: a population owns the current generation's
ordered sequence of bacteria. -/
structure Population where
  bacteria : List Bacteria
deriving DecidableEq, Repr

/-- Modelled from the spec: a segregant is a bacterium that holds zero
plasmids, and `Population.is_segregant` is true iff some bacterium of the
current generation has zero plasmids. -/
def Population.is_segregant (p : Population) : Bool :=
  p.bacteria.any (fun b => b.plasmids.isEmpty)

/-- Modelled from the spec: the stochastic and history-dependent operations
of the imported MAp module, given as a deterministic oracle.  `grow` is
indexed by the number of grow calls made so far in this protocol run (the
position in the ambient random stream) and returns the next generation
together with the per-generation summary string; `isWT` is the wild-type
classification (history-dependent in the MAp module, hence opaque here);
`simulate_plasmids` is the founder-initialisation method called on `B0`. -/
structure MapEnv where
  grow : Nat → Population → Population × String
  isWT : Population → Bool
  simulate_plasmids : Bacteria → Bacteria

/-- The simulation data directory, as an association list from file name
(Python `str`, modelled as `List Char`) to file content. -/
abbrev FS := List (List Char × String)

def FS.names (fs : FS) : List (List Char) := fs.map (fun e => e.1)

def FS.get (fs : FS) (nm : List Char) : Option String :=
  (fs.find? (fun e => e.1 == nm)).map (fun e => e.2)

/-- Effect of `os.remove`. -/
def FS.remove (fs : FS) (nm : List Char) : FS :=
  fs.filter (fun e => !(e.1 == nm))

/-- Effect of `open(nm, 'w')` followed by writing `content`. -/
def FS.write (fs : FS) (nm : List Char) (content : String) : FS :=
  FS.remove fs nm ++ [(nm, content)]

/-- Effect of `os.rename a b`. -/
def FS.rename (fs : FS) (a b : List Char) : FS :=
  fs.map (fun e => if e.1 == a then (b, e.2) else e)

def emptyStr : String := ""

/-- Decimal digit to character, as used by Python `str` on naturals. -/
def digitToChar (d : Nat) : Char := Char.ofNat (48 + d)

def natCharsAux : Nat → Nat → List Char
  | 0, _ => []
  | fuel + 1, n => if n = 0 then [] else natCharsAux fuel (n / 10) ++ [digitToChar (n % 10)]

/-- Decimal rendering of a natural number, as Python `str` produces it. -/
def natChars (n : Nat) : List Char := if n = 0 then ['0'] else natCharsAux n n

/-- Accumulate one character of a digit run into its numeric value. -/
def accDigit (a : Nat) (c : Char) : Nat := a * 10 + (c.toNat - 48)

/-- Maximal digit runs of a character list, each converted to its numeric
value: the composite of `re.findall('[0-9]+', ·)` and `int` on each match.
The accumulator holds the value of the digit run currently being read. -/
def digitRunsGo : List Char → Option Nat → List Nat
  | [], none => []
  | [], some v => [v]
  | c :: cs, none =>
    if c.isDigit then digitRunsGo cs (some (c.toNat - 48)) else digitRunsGo cs none
  | c :: cs, some v =>
    if c.isDigit then digitRunsGo cs (some (v * 10 + (c.toNat - 48))) else v :: digitRunsGo cs none

/-- Last element of a list with a fallback (Python `[-1]` indexing, total). -/
def lastD : List Nat → Nat → Nat
  | [], d => d
  | x :: xs, _ => lastD xs x

/-- Value of the last digit run in a file name:
`int(re.findall('[0-9]+', filepath)[-1])`, by which `runExperiments`
recovers the recorded attempt count from a cached file name. -/
def lastNum (cs : List Char) : Nat := lastD (digitRunsGo cs none) 0

def chDays : List Char := ['M', 'A', 'p', '_', 'd', 'a', 'y', 's']

def chGens : List Char := ['_', 'g', 'e', 'n', 's']

def chMut : List Char := ['_', 'm', 'u', 't']

def chMaxp : List Char := ['_', 'm', 'a', 'x', 'p']

def chIrep : List Char := ['_', 'i', 'r', 'e', 'p']

def chTxt : List Char := ['.', 't', 'x', 't']

def chPkl : List Char := ['.', 'p', 'k', 'l']

def chN : List Char := ['_', 'n']

/-- Canonical artifact key
`MAp_days{nd}_gens{ng}_mut{mut}_maxp{mp}_irep{ir}` (without extension),
shared by `simulateTransfer` and `runExperiments`. -/
def simKey (nd ng : Nat) (mtok : List Char) (mp ir : Nat) : List Char :=
  chDays ++ natChars nd ++ chGens ++ natChars ng ++ chMut ++ mtok
    ++ chMaxp ++ natChars mp ++ chIrep ++ natChars ir

/-- Parameters of one `simulateTransfer` call. -/
structure TransferConfig where
  num_days : Nat
  num_generations : Nat
  max_plasmids : Nat
  mutTok : List Char
  irep : Nat
deriving DecidableEq, Repr

/-- The `fileSIM` name `simulateTransfer` opens for writing (base name inside
the data directory, without the attempt-count suffix). -/
def simName (cfg : TransferConfig) : List Char :=
  simKey cfg.num_days cfg.num_generations cfg.mutTok cfg.max_plasmids cfg.irep ++ chTxt

/-- State threaded through the day/generation loops of `simulateTransfer`:
the current population, the log content written to `fileSIM` so far, and the
number of `grow` calls made (position in the random stream). -/
structure TState where
  pop : Population
  log : String
  step : Nat
deriving DecidableEq, Repr

/-- One log record `f"{day};{ti};{str_mut}"` (the code writes no separator
after it). -/
def rowStr (day ti : Nat) (s : String) : String :=
  toString day ++ ";" ++ toString ti ++ ";" ++ s

/-- The inner generation loop of `simulateTransfer` for one day, starting at
generation index `ti` with `rem` iterations left.  Each iteration calls
`pop.grow()`; if the grown population `is_segregant` the function returns 0
at once (`Except.error`, carrying the state at the abort — note the log row
of the aborting step has not been written); otherwise the row is appended to
the log and the loop continues. -/
def genLoop (env : MapEnv) (day : Nat) : Nat → Nat → TState → Except TState TState
  | _, 0, st => Except.ok st
  | ti, rem + 1, st =>
    let gr := env.grow st.step st.pop
    if (gr.1).is_segregant then Except.error ⟨gr.1, st.log, st.step + 1⟩
    else genLoop env day (ti + 1) rem ⟨gr.1, st.log ++ rowStr day ti gr.2, st.step + 1⟩

/-- The day-boundary transfer: `Bi = pop.bacteria[0]; pop = MAp.Population([Bi])`.
Retains the first bacterium of the current generation and founds a new
single-bacterium population with it, log and random-stream position carried
over. -/
def bottleneck (st : TState) : TState :=
  ⟨⟨[st.pop.bacteria.headI]⟩, st.log, st.step⟩

/-- The outer day loop of `simulateTransfer`, starting at day index `day`
with `rem` days left; `ng` is `num_generations`. -/
def dayLoop (env : MapEnv) (ng : Nat) : Nat → Nat → TState → Except TState TState
  | _, 0, st => Except.ok st
  | day, rem + 1, st =>
    match genLoop env day 0 ng st with
    | Except.error st2 => Except.error st2
    | Except.ok st2 => dayLoop env ng (day + 1) rem (bottleneck st2)

/-- The founder population of `simulateTransfer`: a single bacterium `B0`
whose plasmid list is pre-filled with `max_plasmids` wild-type plasmids,
then passed through `B0.simulate_plasmids()` (a MAp-module method, oracle). -/
def initTState (env : MapEnv) (cfg : TransferConfig) : TState :=
  ⟨⟨[env.simulate_plasmids
      ⟨"B0", ⟨cfg.mutTok, cfg.max_plasmids⟩, List.replicate cfg.max_plasmids ⟨false⟩⟩]⟩,
    emptyStr, 0⟩

/-- Result of one `simulateTransfer` call: the return code (1 for success,
0 for a discarded run), the file store after the call, and the final
population on which `isWT` was (or would have been) evaluated. -/
structure TransferOutput where
  retval : Nat
  fs : FS
  finalPop : Population
deriving DecidableEq, Repr

/-- Embedding of `simulateTransfer`.  The file `fileSIM` is created by
`open(fileSIM, 'w')`; on a segregant abort the function returns 0 leaving
the partial log in place; after the final day it evaluates `pop.isWT()`,
removes the file and returns 0 on a wild-type outcome, and returns 1
otherwise. -/
def simulateTransfer (env : MapEnv) (cfg : TransferConfig) (fs0 : FS) : TransferOutput :=
  let st0 := initTState env cfg
  match dayLoop env cfg.num_generations 0 cfg.num_days st0 with
  | Except.error st2 => ⟨0, FS.write fs0 (simName cfg) st2.log, st2.pop⟩
  | Except.ok st2 =>
    if env.isWT st2.pop then
      ⟨0, FS.remove (FS.write fs0 (simName cfg) st2.log) (simName cfg), st2.pop⟩
    else ⟨1, FS.write fs0 (simName cfg) st2.log, st2.pop⟩

/-- The abort-free run of one day's generation loop: the list of populations
produced by the successive `grow` calls, and the state after the day,
ignoring the segregant check.  On the prefix before the first segregant it
agrees with `genLoop`. -/
def genLoopAll (env : MapEnv) (day : Nat) : Nat → Nat → TState → List Population × TState
  | _, 0, st => ([], st)
  | ti, rem + 1, st =>
    let gr := env.grow st.step st.pop
    let r := genLoopAll env day (ti + 1) rem ⟨gr.1, st.log ++ rowStr day ti gr.2, st.step + 1⟩
    (gr.1 :: r.1, r.2)

/-- The abort-free run of the whole day loop, collecting every post-`grow`
population of the `num_days × num_generations` schedule. -/
def dayLoopAll (env : MapEnv) (ng : Nat) : Nat → Nat → TState → List Population × TState
  | _, 0, st => ([], st)
  | day, rem + 1, st =>
    let g := genLoopAll env day 0 ng st
    let r := dayLoopAll env ng (day + 1) rem (bottleneck g.2)
    (g.1 ++ r.1, r.2)

/-- All populations a full (abort-free) run of the transfer protocol would
grow, one per generation step of the `num_days × num_generations` loop. -/
def transferGrownPops (env : MapEnv) (cfg : TransferConfig) : List Population :=
  (dayLoopAll env cfg.num_generations 0 cfg.num_days (initTState env cfg)).1

/-- The final population of the (abort-free) run, on which `isWT` is
evaluated after the last day boundary. -/
def transferFinalPop (env : MapEnv) (cfg : TransferConfig) : Population :=
  ((dayLoopAll env cfg.num_generations 0 cfg.num_days (initTState env cfg)).2).pop

/-- One per-replicate statistics record of `runExperiments`: the mutation
statistics computed by the external MAp analysis functions (opaque payload)
together with the recorded `nexpe` field. -/
structure RepResult where
  stats : String
  nexpe : Nat
deriving DecidableEq, Repr

/-- Parameters of one `runExperiments` call (the notebook's globals plus
`this_max_plasmids`). -/
structure ExpConfig where
  num_days : Nat
  num_generations : Nat
  mutTok : List Char
  max_plasmids : Nat
  num_reps : Nat
  maxexpe : Nat
deriving DecidableEq, Repr

/-- State of the `while irep < num_reps and nexpe < maxexpe` loop:
collected results, the two counters, the file store, and the number of
`simulateTransfer` invocations made so far (which also indexes the fresh
random stream each invocation consumes). -/
structure ExpState where
  results : List RepResult
  irep : Nat
  nexpe : Nat
  fs : FS
  simCalls : Nat
deriving DecidableEq, Repr

/-- Environment of `runExperiments`: a fresh `MapEnv` for each
`simulateTransfer` invocation, and the external statistics pipeline
(`importData`, `getMutGenerations`, `getCount*Muts`) collapsed into one
opaque function of the log-file content. -/
structure ExpEnv where
  transferEnv : Nat → MapEnv
  statsOf : String → String

/-- The cache-discovery pattern `str_pattern`: the canonical key for
replicate `ir` followed by an underscore. -/
def expPattern (cfg : ExpConfig) (ir : Nat) : List Char :=
  simKey cfg.num_days cfg.num_generations cfg.mutTok cfg.max_plasmids ir ++ ['_']

/-- The directory scan of `runExperiments`: `this_nexpe` is 0 unless some
listed file name starts with the pattern, in which case it is the value of
the last digit run of the last such file name. -/
def scanDir (names : List (List Char)) (pat : List Char) : Nat :=
  names.foldl (fun acc nm => if List.isPrefixOf pat nm then lastNum nm else acc) 0

def expTCfg (cfg : ExpConfig) (ir : Nat) : TransferConfig :=
  ⟨cfg.num_days, cfg.num_generations, cfg.max_plasmids, cfg.mutTok, ir⟩

/-- The attempt-tagged artifact name `{key}_n{c}.txt`. -/
def taggedName (cfg : ExpConfig) (ir c : Nat) : List Char :=
  simKey cfg.num_days cfg.num_generations cfg.mutTok cfg.max_plasmids ir ++ chN ++ natChars c ++ chTxt

/-- One iteration of the `runExperiments` loop body.  If no cached artifact
matches the pattern (`this_nexpe == 0`) it invokes `simulateTransfer`; on a
successful return it appends the statistics record tagged with
`nexpe + 1`, renames the artifact to carry that count and resets `nexpe` to
0, otherwise it just increments `nexpe`.  If a cached artifact matches, it
loads the file named with the recovered count, appends the record tagged
with `this_nexpe + 1`, and leaves `nexpe` at `this_nexpe + 1` (the code
resets `nexpe` only in the `this_nexpe == 0` branch). -/
def expStep (cfg : ExpConfig) (env : ExpEnv) (st : ExpState) : ExpState :=
  let this_nexpe := scanDir (FS.names st.fs) (expPattern cfg st.irep)
  if this_nexpe = 0 then
    let tout := simulateTransfer (env.transferEnv st.simCalls) (expTCfg cfg st.irep) st.fs
    if tout.retval > 0 then
      let content := (FS.get tout.fs (simName (expTCfg cfg st.irep))).getD emptyStr
      let n2 := st.nexpe + 1
      ⟨st.results ++ [⟨env.statsOf content, n2⟩], st.irep + 1, 0,
        FS.rename tout.fs (simName (expTCfg cfg st.irep)) (taggedName cfg st.irep n2),
        st.simCalls + 1⟩
    else ⟨st.results, st.irep, st.nexpe + 1, tout.fs, st.simCalls + 1⟩
  else
    let content := (FS.get st.fs (taggedName cfg st.irep this_nexpe)).getD emptyStr
    let n2 := this_nexpe + 1
    ⟨st.results ++ [⟨env.statsOf content, n2⟩], st.irep + 1, n2, st.fs, st.simCalls⟩

/-- The loop guard `irep < num_reps and nexpe < maxexpe`. -/
def expGuard (cfg : ExpConfig) (st : ExpState) : Bool :=
  decide (st.irep < cfg.num_reps) && decide (st.nexpe < cfg.maxexpe)

/-- The `runExperiments` while-loop, driven by explicit fuel.  The fuel
`expMeasure` is proved sufficient below (`expLoopFuel_guard_false`):
with at least that much fuel the loop always stops with the guard false. -/
def expLoopFuel (cfg : ExpConfig) (env : ExpEnv) : Nat → ExpState → ExpState
  | 0, st => st
  | f + 1, st =>
    if expGuard cfg st = true then expLoopFuel cfg env f (expStep cfg env st) else st

/-- Termination measure of the loop: lexicographic on
(`num_reps - irep`, `maxexpe - nexpe`), collapsed to one natural. -/
def expMeasure (cfg : ExpConfig) (st : ExpState) : Nat :=
  (cfg.num_reps - st.irep) * (cfg.maxexpe + 1) + (cfg.maxexpe - st.nexpe)

def initExpState (fs0 : FS) : ExpState := ⟨[], 0, 0, fs0, 0⟩

/-- The per-sweep aggregate artifact name `MAp_days{..}_maxp{mp}.pkl`. -/
def pklName (cfg : ExpConfig) : List Char :=
  chDays ++ natChars cfg.num_days ++ chGens ++ natChars cfg.num_generations
    ++ chMut ++ cfg.mutTok ++ chMaxp ++ natChars cfg.max_plasmids ++ chPkl

/-- Observable output of one `runExperiments` call: the returned result
list, the final file store, and the pickle artifact written at sweep end
(name together with serialised content). -/
structure ExpOutput where
  results : List RepResult
  fs : FS
  pkl : List (List Char × List RepResult)
deriving DecidableEq, Repr

def runFinalState (cfg : ExpConfig) (env : ExpEnv) (fs0 : FS) : ExpState :=
  expLoopFuel cfg env (expMeasure cfg (initExpState fs0)) (initExpState fs0)

/-- Embedding of `runExperiments`: run the loop from fresh counters, then
unconditionally dump `experiment_results` to the `.pkl` artifact and return
it. -/
def runExperiments (cfg : ExpConfig) (env : ExpEnv) (fs0 : FS) : ExpOutput :=
  ⟨(runFinalState cfg env fs0).results, (runFinalState cfg env fs0).fs,
    [(pklName cfg, (runFinalState cfg env fs0).results)]⟩

/-! ### Concrete fixtures used by witnesses and counterexamples -/

def gStr : String := "g"

/-- A bacterium holding a single wild-type plasmid. -/
def bactOne : Bacteria := ⟨"B0", ⟨['0'], 1⟩, [⟨false⟩]⟩

/-- A bacterium holding no plasmids (a segregant). -/
def bactNone : Bacteria := ⟨"B0", ⟨['0'], 1⟩, []⟩

/-- Oracle whose grow keeps the population unchanged and whose wild-type
check always fails: every transfer run succeeds. -/
def envStay : MapEnv := ⟨fun _ p => (p, gStr), fun _ => false, fun b => b⟩

/-- Oracle whose grow keeps the population unchanged and whose wild-type
check always holds: every transfer run is discarded as wild-type. -/
def envWT : MapEnv := ⟨fun _ p => (p, gStr), fun _ => true, fun b => b⟩

/-- Oracle whose grow immediately yields a plasmid-free bacterium: every
transfer run aborts as segregant at its first generation step. -/
def envSeg : MapEnv := ⟨fun _ _ => (⟨[bactNone]⟩, gStr), fun _ => false, fun b => b⟩

/-- Transfer configuration: one day, one generation, one plasmid. -/
def tcfg1 : TransferConfig := ⟨1, 1, 1, ['0'], 0⟩

/-- A concrete mid-protocol state holding the single-plasmid bacterium. -/
def stT1 : TState := ⟨⟨[bactOne]⟩, emptyStr, 0⟩

def expEnvStay : ExpEnv := ⟨fun _ => envStay, fun s => s⟩

def expEnvWT : ExpEnv := ⟨fun _ => envWT, fun s => s⟩

/-- Environment whose first `simulateTransfer` invocation succeeds and
whose later invocations are discarded as wild-type. -/
def expEnvOne : ExpEnv := ⟨fun i => if i = 0 then envStay else envWT, fun s => s⟩

/-- Campaign configuration asking for one replicate with a large ceiling. -/
def cfgA : ExpConfig := ⟨1, 1, ['0'], 1, 1, 10⟩

/-- Campaign configuration asking for two replicates with ceiling 2. -/
def cfgB : ExpConfig := ⟨1, 1, ['0'], 1, 2, 2⟩

/-- Campaign configuration asking for one replicate with ceiling 3. -/
def cfgW2 : ExpConfig := ⟨1, 1, ['0'], 1, 1, 3⟩

/-- Campaign configuration asking for one replicate with ceiling 2. -/
def cfgW10 : ExpConfig := ⟨1, 1, ['0'], 1, 1, 2⟩

/-- A file store holding one cached artifact for replicate 0 with recorded
attempt count 5. -/
def fsCached : FS := [(taggedName cfgA 0 5, "LOG")]

/-- The loop state at entry with `fsCached` on disk. -/
def stCached : ExpState := initExpState fsCached

/-! ### Helper lemmas: prefixes, digit parsing, the file store -/

theorem isPrefixOf_append_same (a b c : List Char) :
    List.isPrefixOf (a ++ b) (a ++ c) = List.isPrefixOf b c := by
  induction a with
  | nil => rfl
  | cons x xs ih =>
    show (x == x && List.isPrefixOf (xs ++ b) (xs ++ c)) = List.isPrefixOf b c
    rw [beq_self_eq_true, Bool.true_and, ih]

theorem digitToChar_isDigit {d : Nat} (h : d < 10) : (digitToChar d).isDigit = true := by
  interval_cases d <;> decide

theorem digitToChar_toNat {d : Nat} (h : d < 10) : (digitToChar d).toNat - 48 = d := by
  interval_cases d <;> decide

theorem digitRunsGo_append_nondigit {c0 : Char} (h : c0.isDigit = false) :
    ∀ (cs ds : List Char) (acc : Option Nat),
      digitRunsGo (cs ++ c0 :: ds) acc = digitRunsGo cs acc ++ digitRunsGo ds none := by
  intro cs
  induction cs with
  | nil =>
    intro ds acc
    cases acc with
    | none => simp [digitRunsGo, h]
    | some v => simp [digitRunsGo, h]
  | cons x xs ih =>
    intro ds acc
    cases acc with
    | none =>
      by_cases hx : x.isDigit
      · simp [digitRunsGo, hx, ih]
      · simp [digitRunsGo, hx, ih]
    | some v =>
      by_cases hx : x.isDigit
      · simp [digitRunsGo, hx, ih]
      · simp [digitRunsGo, hx, ih]

theorem digitRunsGo_digits_append :
    ∀ (xs : List Char), (∀ c ∈ xs, c.isDigit = true) →
      ∀ (v : Nat) (ys : List Char),
        digitRunsGo (xs ++ ys) (some v) = digitRunsGo ys (some (xs.foldl accDigit v)) := by
  intro xs
  induction xs with
  | nil => intro _ v ys; rfl
  | cons x xs ih =>
    intro hall v ys
    have hx : x.isDigit = true := hall x (List.mem_cons_self x xs)
    have hxs : ∀ c ∈ xs, c.isDigit = true := fun c hc => hall c (List.mem_cons_of_mem _ hc)
    simp [digitRunsGo, hx, ih hxs, accDigit]

theorem natCharsAux_digits : ∀ (fuel n : Nat), ∀ c ∈ natCharsAux fuel n, c.isDigit = true := by
  intro fuel
  induction fuel with
  | zero => intro n c hc; simp [natCharsAux] at hc
  | succ f ih =>
    intro n c hc
    by_cases hn : n = 0
    · simp [natCharsAux, hn] at hc
    · simp [natCharsAux, hn] at hc
      rcases hc with hc | hc
      · exact ih _ c hc
      · subst hc; exact digitToChar_isDigit (Nat.mod_lt _ (by norm_num))

theorem natCharsAux_foldl : ∀ (fuel n : Nat), n ≤ fuel →
    ∀ v : Nat, ∃ k : Nat, (natCharsAux fuel n).foldl accDigit v = v * 10 ^ k + n := by
  intro fuel
  induction fuel with
  | zero =>
    intro n hn v
    refine ⟨0, ?_⟩
    have h0 : n = 0 := by omega
    subst h0
    simp [natCharsAux]
  | succ f ih =>
    intro n hn v
    by_cases h0 : n = 0
    · subst h0; exact ⟨0, by simp [natCharsAux]⟩
    · have hlt : n / 10 < n := Nat.div_lt_self (Nat.pos_of_ne_zero h0) (by norm_num)
      have hle : n / 10 ≤ f := by omega
      obtain ⟨k, hk⟩ := ih (n / 10) hle v
      refine ⟨k + 1, ?_⟩
      have hstep : (natCharsAux (f + 1) n).foldl accDigit v
          = accDigit ((natCharsAux f (n / 10)).foldl accDigit v) (digitToChar (n % 10)) := by
        simp [natCharsAux, h0, List.foldl_append]
      have hd : (digitToChar (n % 10)).toNat - 48 = n % 10 :=
        digitToChar_toNat (Nat.mod_lt _ (by norm_num))
      rw [hstep, hk]
      simp only [accDigit, hd]
      have hmod := Nat.div_add_mod n 10
      calc (v * 10 ^ k + n / 10) * 10 + n % 10
          = v * (10 ^ k * 10) + (10 * (n / 10) + n % 10) := by ring
        _ = v * 10 ^ (k + 1) + n := by rw [hmod, pow_succ]

theorem natCharsAux_ne_nil {fuel n : Nat} (h0 : n ≠ 0) (hle : n ≤ fuel) :
    natCharsAux fuel n ≠ [] := by
  cases fuel with
  | zero => omega
  | succ f => simp [natCharsAux, h0]

theorem digitRunsGo_natChars (n : Nat) (ys : List Char) :
    digitRunsGo (natChars n ++ ys) none = digitRunsGo ys (some n) := by
  by_cases h0 : n = 0
  · subst h0
    have h1 : ('0' : Char).isDigit = true := by decide
    have h2 : ('0' : Char).toNat - 48 = 0 := by decide
    show digitRunsGo ('0' :: ys) none = digitRunsGo ys (some 0)
    simp [digitRunsGo, h1, h2]
  · obtain ⟨c, cs, hcc⟩ : ∃ c cs, natCharsAux n n = c :: cs := by
      cases hne : natCharsAux n n with
      | nil => exact absurd hne (natCharsAux_ne_nil h0 (Nat.le_refl n))
      | cons c cs => exact ⟨c, cs, rfl⟩
    have hall := natCharsAux_digits n n
    have hcdig : c.isDigit = true := hall c (by rw [hcc]; exact List.mem_cons_self c cs)
    have hcs : ∀ x ∈ cs, x.isDigit = true := by
      intro x hx
      exact hall x (by rw [hcc]; exact List.mem_cons_of_mem _ hx)
    obtain ⟨k, hk⟩ := natCharsAux_foldl n n (Nat.le_refl n) 0
    rw [hcc] at hk
    have hfold : cs.foldl accDigit (c.toNat - 48) = n := by
      have hzero : accDigit 0 c = c.toNat - 48 := by simp [accDigit]
      have : (c :: cs).foldl accDigit 0 = cs.foldl accDigit (c.toNat - 48) := by
        simp [List.foldl_cons, hzero]
      rw [this] at hk
      simpa using hk
    have hnc : natChars n = c :: cs := by rw [natChars, if_neg h0, hcc]
    rw [hnc, List.cons_append]
    have hone : digitRunsGo (c :: (cs ++ ys)) none
        = digitRunsGo (cs ++ ys) (some (c.toNat - 48)) := by
      simp [digitRunsGo, hcdig]
    rw [hone, digitRunsGo_digits_append cs hcs (c.toNat - 48) ys, hfold]

theorem lastD_concat : ∀ (l : List Nat) (x d : Nat), lastD (l ++ [x]) d = x := by
  intro l
  induction l with
  | nil => intro x d; rfl
  | cons a as ih => intro x d; exact ih x a

theorem lastNum_taggedName (key : List Char) (c : Nat) :
    lastNum (key ++ chN ++ natChars c ++ chTxt) = c := by
  have hund : ('_' : Char).isDigit = false := by decide
  have hn : ('n' : Char).isDigit = false := by decide
  have h1 : key ++ chN ++ natChars c ++ chTxt = key ++ '_' :: 'n' :: (natChars c ++ chTxt) := by
    simp [chN, chTxt, List.append_assoc]
  rw [lastNum, h1, digitRunsGo_append_nondigit hund]
  have h2 : digitRunsGo ('n' :: (natChars c ++ chTxt)) none
      = digitRunsGo (natChars c ++ chTxt) none := by
    simp [digitRunsGo, hn]
  rw [h2, digitRunsGo_natChars]
  have h4 : digitRunsGo (['t', 'x', 't'] : List Char) none = [] := by decide
  have hdot : ('.' : Char).isDigit = false := by decide
  have h3 : digitRunsGo chTxt (some c) = [c] := by
    show digitRunsGo ('.' :: ['t', 'x', 't']) (some c) = [c]
    simp [digitRunsGo, hdot, h4]
  rw [h3]
  exact lastD_concat _ c 0

theorem pattern_isPrefixOf_tagged (key : List Char) (c : Nat) :
    List.isPrefixOf (key ++ ['_']) (key ++ chN ++ natChars c ++ chTxt) = true := by
  have h1 : key ++ chN ++ natChars c ++ chTxt = key ++ '_' :: 'n' :: (natChars c ++ chTxt) := by
    simp [chN, chTxt, List.append_assoc]
  rw [h1, isPrefixOf_append_same]
  simp [List.isPrefixOf]

theorem pattern_not_isPrefixOf_plain (key : List Char) :
    List.isPrefixOf (key ++ ['_']) (key ++ chTxt) = false := by
  have h1 : (key ++ chTxt : List Char) = key ++ '.' :: ['t', 'x', 't'] := by simp [chTxt]
  rw [h1, isPrefixOf_append_same]
  decide

theorem foldl_scan_no_match (pat : List Char) :
    ∀ (l : List (List Char)) (a : Nat), (∀ x ∈ l, List.isPrefixOf pat x = false) →
      List.foldl (fun acc nm => if List.isPrefixOf pat nm then lastNum nm else acc) a l = a := by
  intro l
  induction l with
  | nil => intro a _; rfl
  | cons x xs ih =>
    intro a hall
    have hx := hall x (List.mem_cons_self x xs)
    rw [List.foldl_cons]
    simp only [hx, Bool.false_eq_true, if_false]
    exact ih a (fun y hy => hall y (List.mem_cons_of_mem _ hy))

theorem scanDir_last_match (pat nm : List Char) (l1 l2 : List (List Char))
    (hm : List.isPrefixOf pat nm = true) (hl2 : ∀ x ∈ l2, List.isPrefixOf pat x = false) :
    scanDir (l1 ++ nm :: l2) pat = lastNum nm := by
  rw [scanDir, List.foldl_append, List.foldl_cons]
  simp only [hm, if_true]
  exact foldl_scan_no_match pat l2 (lastNum nm) hl2

theorem find?_remove_append (fs : FS) (nm : List Char) (tail : FS) :
    List.find? (fun e => e.1 == nm) (FS.remove fs nm ++ tail)
      = List.find? (fun e => e.1 == nm) tail := by
  induction fs with
  | nil => rfl
  | cons e fs ih =>
    show List.find? (fun e => e.1 == nm) (List.filter (fun e => !(e.1 == nm)) (e :: fs) ++ tail)
        = List.find? (fun e => e.1 == nm) tail
    rw [List.filter_cons]
    cases he : (e.1 == nm) with
    | true =>
      simp only [he, Bool.not_true, Bool.false_eq_true, if_false]
      exact ih
    | false =>
      simp only [he, Bool.not_false, if_true, List.cons_append, List.find?_cons,
        Bool.false_eq_true]
      exact ih

theorem FS_get_write (fs : FS) (nm : List Char) (content : String) :
    FS.get (FS.write fs nm content) nm = some content := by
  rw [FS.write, FS.get, find?_remove_append]
  simp [List.find?]

theorem FS_get_remove (fs : FS) (nm : List Char) :
    FS.get (FS.remove fs nm) nm = none := by
  have h := find?_remove_append fs nm []
  rw [List.append_nil] at h
  rw [FS.get, h]
  rfl

/-! ### Relating the aborting loops to their abort-free runs -/

theorem genLoop_ok_of_noSeg (env : MapEnv) (day : Nat) :
    ∀ (rem ti : Nat) (st : TState),
      (∀ p ∈ (genLoopAll env day ti rem st).1, p.is_segregant = false) →
      genLoop env day ti rem st = Except.ok ((genLoopAll env day ti rem st).2) := by
  intro rem
  induction rem with
  | zero => intro ti st _; rfl
  | succ r ih =>
    intro ti st h
    have hseg : ((env.grow st.step st.pop).1).is_segregant = false := by
      apply h
      simp [genLoopAll]
    simp only [genLoop, genLoopAll, hseg, Bool.false_eq_true, if_false]
    apply ih
    intro p hp
    apply h
    simp [genLoopAll]
    right
    exact hp

theorem genLoop_ok_elim (env : MapEnv) (day : Nat) :
    ∀ (rem ti : Nat) (st s : TState),
      genLoop env day ti rem st = Except.ok s →
      (∀ p ∈ (genLoopAll env day ti rem st).1, p.is_segregant = false)
        ∧ s = (genLoopAll env day ti rem st).2 := by
  intro rem
  induction rem with
  | zero =>
    intro ti st s h
    constructor
    · intro p hp; simp [genLoopAll] at hp
    · have : st = s := by simpa [genLoop] using h
      simpa [genLoopAll] using this.symm
  | succ r ih =>
    intro ti st s h
    simp only [genLoop] at h
    cases hseg : ((env.grow st.step st.pop).1).is_segregant with
    | true =>
      rw [hseg] at h
      simp at h
    | false =>
      rw [hseg] at h
      simp only [Bool.false_eq_true, if_false] at h
      obtain ⟨h1, h2⟩ := ih (ti + 1) _ s h
      constructor
      · intro p hp
        simp only [genLoopAll, List.mem_cons] at hp
        rcases hp with hp | hp
        · rw [hp]; exact hseg
        · exact h1 p hp
      · simpa [genLoopAll] using h2

theorem dayLoop_ok_of_noSeg (env : MapEnv) (ng : Nat) :
    ∀ (rem day : Nat) (st : TState),
      (∀ p ∈ (dayLoopAll env ng day rem st).1, p.is_segregant = false) →
      dayLoop env ng day rem st = Except.ok ((dayLoopAll env ng day rem st).2) := by
  intro rem
  induction rem with
  | zero => intro day st _; rfl
  | succ r ih =>
    intro day st h
    have hg : ∀ p ∈ (genLoopAll env day 0 ng st).1, p.is_segregant = false := by
      intro p hp
      apply h
      simp only [dayLoopAll, List.mem_append]
      exact Or.inl hp
    have hgen := genLoop_ok_of_noSeg env day ng 0 st hg
    simp only [dayLoop, dayLoopAll, hgen]
    apply ih
    intro p hp
    apply h
    simp only [dayLoopAll, List.mem_append]
    exact Or.inr hp

theorem dayLoop_ok_elim (env : MapEnv) (ng : Nat) :
    ∀ (rem day : Nat) (st s : TState),
      dayLoop env ng day rem st = Except.ok s →
      (∀ p ∈ (dayLoopAll env ng day rem st).1, p.is_segregant = false)
        ∧ s = (dayLoopAll env ng day rem st).2 := by
  intro rem
  induction rem with
  | zero =>
    intro day st s h
    constructor
    · intro p hp; simp [dayLoopAll] at hp
    · have : st = s := by simpa [dayLoop] using h
      simpa [dayLoopAll] using this.symm
  | succ r ih =>
    intro day st s h
    simp only [dayLoop] at h
    cases hgen : genLoop env day 0 ng st with
    | error st2 => rw [hgen] at h; simp at h
    | ok st2 =>
      rw [hgen] at h
      simp only at h
      obtain ⟨hg1, hg2⟩ := genLoop_ok_elim env day ng 0 st st2 hgen
      obtain ⟨h1, h2⟩ := ih (day + 1) _ s h
      constructor
      · intro p hp
        simp only [dayLoopAll, List.mem_append] at hp
        rcases hp with hp | hp
        · exact hg1 p hp
        · rw [hg2] at h1
          exact h1 p hp
      · rw [hg2] at h2
        simpa [dayLoopAll] using h2

theorem dayLoopAll_len (env : MapEnv) (ng : Nat) :
    ∀ (rem day : Nat) (st : TState), st.pop.bacteria.length = 1 →
      (((dayLoopAll env ng day rem st).2).pop).bacteria.length = 1 := by
  intro rem
  induction rem with
  | zero => intro day st h; exact h
  | succ r ih =>
    intro day st h
    simp only [dayLoopAll]
    exact ih (day + 1) _ (by simp [bottleneck])

/-! ### Claim theorems -/

/-- C1: a run of the Transfer Protocol (`simulateTransfer`) returns 1
(Success) if and only if no generation step of the
`num_days × num_generations` loop produced a segregant population and the
final single-bacterium population is not wild-type; in every other case it
returns 0 (a Discarded outcome).  The final population on which the
wild-type check runs indeed holds exactly one bacterium, and the return
value is always 0 or 1. -/
theorem simulateTransfer_success_iff (env : MapEnv) (cfg : TransferConfig) (fs0 : FS) :
    ((simulateTransfer env cfg fs0).retval = 1 ↔
      ((∀ p ∈ transferGrownPops env cfg, p.is_segregant = false)
        ∧ env.isWT (transferFinalPop env cfg) = false))
    ∧ (transferFinalPop env cfg).bacteria.length = 1
    ∧ (simulateTransfer env cfg fs0).retval ≤ 1 := by
  have hlen : (transferFinalPop env cfg).bacteria.length = 1 := by
    rw [transferFinalPop]
    apply dayLoopAll_len
    simp [initTState]
  refine ⟨?_, hlen, ?_⟩
  · cases hdl : dayLoop env cfg.num_generations 0 cfg.num_days (initTState env cfg) with
    | error st2 =>
      have hret : (simulateTransfer env cfg fs0).retval = 0 := by
        simp [simulateTransfer, hdl]
      constructor
      · intro h
        rw [hret] at h
        omega
      · rintro ⟨hno, _⟩
        have hok := dayLoop_ok_of_noSeg env cfg.num_generations cfg.num_days 0
          (initTState env cfg) hno
        rw [hdl] at hok
        simp at hok
    | ok st2 =>
      obtain ⟨hno, hst⟩ := dayLoop_ok_elim env cfg.num_generations cfg.num_days 0
        (initTState env cfg) st2 hdl
      have hfin : transferFinalPop env cfg = st2.pop := by
        rw [transferFinalPop, ← hst]
      cases hwt : env.isWT st2.pop with
      | true =>
        have hret : (simulateTransfer env cfg fs0).retval = 0 := by
          simp [simulateTransfer, hdl, hwt]
        constructor
        · intro h
          rw [hret] at h
          omega
        · rintro ⟨_, hwtf⟩
          rw [hfin, hwt] at hwtf
          cases hwtf
      | false =>
        have hret : (simulateTransfer env cfg fs0).retval = 1 := by
          simp [simulateTransfer, hdl, hwt]
        rw [hret]
        constructor
        · intro _
          exact ⟨hno, by rw [hfin]; exact hwt⟩
        · intro _
          rfl
  · cases hdl : dayLoop env cfg.num_generations 0 cfg.num_days (initTState env cfg) with
    | error st2 => simp [simulateTransfer, hdl]
    | ok st2 =>
      cases hwt : env.isWT st2.pop with
      | true => simp [simulateTransfer, hdl, hwt]
      | false => simp [simulateTransfer, hdl, hwt]

/-- C7: at every day boundary of the Transfer Protocol exactly one
bacterium is retained: when a day's generation loop completes, the day loop
continues on the single-bacterium population `[b]`, where `b` is the first
element of that day's final bacteria sequence (a fixed positional index —
the continuation is the same for every stochastic oracle reaching this
state, never a fresh random draw), and `b`, in particular its plasmid pool,
is carried over unchanged. -/
theorem dayBoundary_retains_first (env : MapEnv) (ng day rem : Nat) (st st2 : TState)
    (b : Bacteria) (rest : List Bacteria)
    (hok : genLoop env day 0 ng st = Except.ok st2)
    (hb : st2.pop.bacteria = b :: rest) :
    dayLoop env ng day (rem + 1) st
      = dayLoop env ng (day + 1) rem ⟨⟨[b]⟩, st2.log, st2.step⟩
    ∧ (bottleneck st2).pop.bacteria = [b]
    ∧ ((bottleneck st2).pop.bacteria.headI).plasmids = b.plasmids := by
  have hbn : bottleneck st2 = ⟨⟨[b]⟩, st2.log, st2.step⟩ := by
    simp [bottleneck, hb]
  refine ⟨?_, by rw [hbn], by rw [hbn]; rfl⟩
  simp only [dayLoop, hok, hbn]

/-- Witness for C7 at a concrete one-day run with a trivial oracle. -/
theorem dayBoundary_retains_first_witness :
    (dayLoop envStay 1 0 1 stT1
      = dayLoop envStay 1 1 0 ⟨⟨[bactOne]⟩, emptyStr ++ rowStr 0 0 gStr, 1⟩)
    ∧ (bottleneck ⟨⟨[bactOne]⟩, emptyStr ++ rowStr 0 0 gStr, 1⟩).pop.bacteria = [bactOne]
    ∧ ((bottleneck ⟨⟨[bactOne]⟩, emptyStr ++ rowStr 0 0 gStr, 1⟩).pop.bacteria.headI).plasmids
        = bactOne.plasmids :=
  dayBoundary_retains_first envStay 1 0 0 stT1
    ⟨⟨[bactOne]⟩, emptyStr ++ rowStr 0 0 gStr, 1⟩ bactOne [] rfl rfl

/-- C5 (amended): within each generation step of the Transfer Protocol the
order of operations is: call grow, then check the segregant condition and —
if it holds — abort immediately with the log unchanged, and only for
non-segregant steps append the record `(day, generationStep, summary)` to
the log.  Consequently the generation step in which segregation occurs is
NOT recorded in the log. -/
theorem genStep_order (env : MapEnv) (day ti rem : Nat) (st : TState) :
    (((env.grow st.step st.pop).1).is_segregant = true →
      genLoop env day ti (rem + 1) st
        = Except.error ⟨(env.grow st.step st.pop).1, st.log, st.step + 1⟩)
    ∧ (((env.grow st.step st.pop).1).is_segregant = false →
      genLoop env day ti (rem + 1) st
        = genLoop env day (ti + 1) rem
            ⟨(env.grow st.step st.pop).1,
              st.log ++ rowStr day ti (env.grow st.step st.pop).2, st.step + 1⟩) := by
  constructor
  · intro h
    simp only [genLoop, h, if_true]
  · intro h
    simp only [genLoop, h, Bool.false_eq_true, if_false]

/-- Witness for C5's amended statement: both branches of `genStep_order`
instantiated at concrete oracles. -/
theorem genStep_order_witness :
    (genLoop envSeg 0 0 1 stT1 = Except.error ⟨⟨[bactNone]⟩, stT1.log, stT1.step + 1⟩)
    ∧ (genLoop envStay 0 0 1 stT1
        = genLoop envStay 0 1 0 ⟨⟨[bactOne]⟩, stT1.log ++ rowStr 0 0 gStr, stT1.step + 1⟩) :=
  ⟨(genStep_order envSeg 0 0 0 stT1).1 rfl, (genStep_order envStay 0 0 0 stT1).2 rfl⟩

/-- C5 counterexample: with an oracle whose very first grow call produces a
segregant population, `simulateTransfer` returns 0 and the log file left on
disk is empty — the record of the aborting generation step was never
appended, contradicting the claim that the append happens before the
segregant check. -/
theorem simulateTransfer_seg_unlogged :
    (simulateTransfer envSeg tcfg1 []).retval = 0
    ∧ FS.get (simulateTransfer envSeg tcfg1 []).fs (simName tcfg1) = some emptyStr
    ∧ FS.get (simulateTransfer envSeg tcfg1 []).fs (simName tcfg1)
        ≠ some (rowStr 0 0 gStr) := by
  refine ⟨rfl, rfl, ?_⟩
  decide

/-- C6: on a wild-type discard after the final day the log file is deleted
before `simulateTransfer` returns and the result is 0, whereas on a
segregant abort the result is 0 and the partially written log file is left
in place, holding exactly the rows written before the abort. -/
theorem simulateTransfer_log_cleanup (env : MapEnv) (cfg : TransferConfig) (fs0 : FS) :
    (∀ stE : TState,
      dayLoop env cfg.num_generations 0 cfg.num_days (initTState env cfg) = Except.error stE →
      (simulateTransfer env cfg fs0).retval = 0
        ∧ FS.get (simulateTransfer env cfg fs0).fs (simName cfg) = some stE.log)
    ∧ (∀ stO : TState,
      dayLoop env cfg.num_generations 0 cfg.num_days (initTState env cfg) = Except.ok stO →
      env.isWT stO.pop = true →
      (simulateTransfer env cfg fs0).retval = 0
        ∧ FS.get (simulateTransfer env cfg fs0).fs (simName cfg) = none) := by
  constructor
  · intro stE h
    refine ⟨by simp [simulateTransfer, h], ?_⟩
    simp only [simulateTransfer, h]
    exact FS_get_write fs0 (simName cfg) stE.log
  · intro stO h hwt
    refine ⟨by simp [simulateTransfer, h, hwt], ?_⟩
    simp only [simulateTransfer, h, hwt, if_true]
    exact FS_get_remove _ (simName cfg)

/-- Witness for C6: the segregant branch at a concrete aborting oracle and
the wild-type branch at a concrete wild-type oracle. -/
theorem simulateTransfer_log_cleanup_witness :
    ((simulateTransfer envSeg tcfg1 []).retval = 0
      ∧ FS.get (simulateTransfer envSeg tcfg1 []).fs (simName tcfg1)
          = some ((⟨⟨[bactNone]⟩, emptyStr, 1⟩ : TState).log))
    ∧ ((simulateTransfer envWT tcfg1 []).retval = 0
      ∧ FS.get (simulateTransfer envWT tcfg1 []).fs (simName tcfg1) = none) :=
  ⟨(simulateTransfer_log_cleanup envSeg tcfg1 []).1 ⟨⟨[bactNone]⟩, emptyStr, 1⟩ rfl,
   (simulateTransfer_log_cleanup envWT tcfg1 []).2
     ⟨⟨[bactOne]⟩, emptyStr ++ rowStr 0 0 gStr, 1⟩ rfl rfl⟩

/-! ### Campaign controller: progress, termination, invariants -/

theorem expGuard_true_elim {cfg : ExpConfig} {st : ExpState} (h : expGuard cfg st = true) :
    st.irep < cfg.num_reps ∧ st.nexpe < cfg.maxexpe := by
  simpa [expGuard] using h

theorem expGuard_false_iff (cfg : ExpConfig) (st : ExpState) :
    expGuard cfg st = false ↔ (cfg.num_reps ≤ st.irep ∨ cfg.maxexpe ≤ st.nexpe) := by
  simp [expGuard]
  omega

theorem expStep_progress (cfg : ExpConfig) (env : ExpEnv) (st : ExpState) :
    (expStep cfg env st).irep = st.irep + 1
    ∨ ((expStep cfg env st).irep = st.irep ∧ (expStep cfg env st).nexpe = st.nexpe + 1) := by
  by_cases h0 : scanDir (FS.names st.fs) (expPattern cfg st.irep) = 0
  · by_cases hr :
      (simulateTransfer (env.transferEnv st.simCalls) (expTCfg cfg st.irep) st.fs).retval > 0
    · left
      simp [expStep, h0, hr]
    · right
      simp [expStep, h0, hr]
  · left
    simp [expStep, h0]

theorem expMeasure_decreases (cfg : ExpConfig) (env : ExpEnv) (st : ExpState)
    (h : expGuard cfg st = true) :
    expMeasure cfg (expStep cfg env st) < expMeasure cfg st := by
  obtain ⟨hR, hE⟩ := expGuard_true_elim h
  rcases expStep_progress cfg env st with hp | ⟨hp1, hp2⟩
  · rw [expMeasure, expMeasure, hp]
    have key : (cfg.num_reps - (st.irep + 1)) * (cfg.maxexpe + 1) + cfg.maxexpe
        < (cfg.num_reps - st.irep) * (cfg.maxexpe + 1) := by
      have h2 : cfg.num_reps - st.irep = (cfg.num_reps - (st.irep + 1)) + 1 := by omega
      rw [h2, Nat.succ_mul]
      exact Nat.add_lt_add_left (Nat.lt_succ_self _) _
    have hle : cfg.maxexpe - (expStep cfg env st).nexpe ≤ cfg.maxexpe := Nat.sub_le _ _
    calc (cfg.num_reps - (st.irep + 1)) * (cfg.maxexpe + 1)
          + (cfg.maxexpe - (expStep cfg env st).nexpe)
        ≤ (cfg.num_reps - (st.irep + 1)) * (cfg.maxexpe + 1) + cfg.maxexpe :=
          Nat.add_le_add_left hle _
      _ < (cfg.num_reps - st.irep) * (cfg.maxexpe + 1) := key
      _ ≤ (cfg.num_reps - st.irep) * (cfg.maxexpe + 1) + (cfg.maxexpe - st.nexpe) :=
          Nat.le_add_right _ _
  · rw [expMeasure, expMeasure, hp1, hp2]
    exact Nat.add_lt_add_left (by omega) _

theorem expLoopFuel_guard_false (cfg : ExpConfig) (env : ExpEnv) :
    ∀ (f : Nat) (st : ExpState), expMeasure cfg st ≤ f →
      expGuard cfg (expLoopFuel cfg env f st) = false := by
  intro f
  induction f with
  | zero =>
    intro st hM
    rw [expMeasure] at hM
    have hsum := Nat.le_zero.mp hM
    have hzero := (Nat.add_eq_zero.mp hsum).1
    rcases Nat.mul_eq_zero.mp hzero with hz | hz
    · have : cfg.num_reps ≤ st.irep := Nat.sub_eq_zero_iff_le.mp hz
      exact (expGuard_false_iff cfg st).mpr (Or.inl this)
    · omega
  | succ f ih =>
    intro st hM
    cases hg : expGuard cfg st with
    | false =>
      simp [expLoopFuel, hg]
    | true =>
      have hdec := expMeasure_decreases cfg env st hg
      simp only [expLoopFuel, hg, if_true]
      exact ih (expStep cfg env st) (by omega)

theorem expLoopFuel_stable (cfg : ExpConfig) (env : ExpEnv) :
    ∀ (f1 f2 : Nat) (st : ExpState), expMeasure cfg st ≤ f1 → expMeasure cfg st ≤ f2 →
      expLoopFuel cfg env f1 st = expLoopFuel cfg env f2 st := by
  intro f1
  induction f1 with
  | zero =>
    intro f2 st h1 _
    have hg : expGuard cfg st = false := expLoopFuel_guard_false cfg env 0 st h1
    cases f2 with
    | zero => rfl
    | succ f2 => simp [expLoopFuel, hg]
  | succ f ih =>
    intro f2 st h1 h2
    cases hg : expGuard cfg st with
    | false =>
      cases f2 with
      | zero => simp [expLoopFuel, hg]
      | succ f2 => simp [expLoopFuel, hg]
    | true =>
      have hdec := expMeasure_decreases cfg env st hg
      have hM1 : 1 ≤ expMeasure cfg st := by omega
      cases f2 with
      | zero => omega
      | succ f2 =>
        simp only [expLoopFuel, hg, if_true]
        exact ih f2 (expStep cfg env st) (by omega) (by omega)

theorem expStep_len (cfg : ExpConfig) (env : ExpEnv) (st : ExpState)
    (h : st.results.length = st.irep) :
    (expStep cfg env st).results.length = (expStep cfg env st).irep := by
  by_cases h0 : scanDir (FS.names st.fs) (expPattern cfg st.irep) = 0
  · by_cases hr :
      (simulateTransfer (env.transferEnv st.simCalls) (expTCfg cfg st.irep) st.fs).retval > 0
    · simp [expStep, h0, hr, h]
    · simp [expStep, h0, hr, h]
  · simp [expStep, h0, h]

theorem expLoopFuel_len (cfg : ExpConfig) (env : ExpEnv) :
    ∀ (f : Nat) (st : ExpState), st.results.length = st.irep →
      (expLoopFuel cfg env f st).results.length = (expLoopFuel cfg env f st).irep := by
  intro f
  induction f with
  | zero => intro st h; exact h
  | succ f ih =>
    intro st h
    cases hg : expGuard cfg st with
    | false => simpa [expLoopFuel, hg] using h
    | true =>
      simp only [expLoopFuel, hg, if_true]
      exact ih _ (expStep_len cfg env st h)

/-- C2: the Campaign Controller loop of `runExperiments` terminates for all
parameters and environments: run with the sufficient fuel `expMeasure`, the
loop always ends in a state where the guard is false; the guard is false
exactly when the success counter has reached `num_reps` or the attempt
counter has reached `maxexpe`; and every iteration of the loop body either
increments the success counter or increments the attempt counter. -/
theorem runExperiments_halts (cfg : ExpConfig) (env : ExpEnv) :
    (∀ (f : Nat) (st : ExpState), expMeasure cfg st ≤ f →
      expGuard cfg (expLoopFuel cfg env f st) = false)
    ∧ (∀ st : ExpState, expGuard cfg st = true →
      (expStep cfg env st).irep = st.irep + 1
      ∨ ((expStep cfg env st).irep = st.irep ∧ (expStep cfg env st).nexpe = st.nexpe + 1))
    ∧ (∀ st : ExpState,
      expGuard cfg st = false ↔ (cfg.num_reps ≤ st.irep ∨ cfg.maxexpe ≤ st.nexpe)) := by
  refine ⟨expLoopFuel_guard_false cfg env, ?_, expGuard_false_iff cfg⟩
  intro st _
  exact expStep_progress cfg env st

/-- Witness for C2 at a concrete configuration and environment. -/
theorem runExperiments_halts_witness :
    expGuard cfgW2 (expLoopFuel cfgW2 expEnvWT
        (expMeasure cfgW2 (initExpState [])) (initExpState [])) = false
    ∧ ((expStep cfgW2 expEnvWT (initExpState [])).irep = (initExpState []).irep + 1
      ∨ ((expStep cfgW2 expEnvWT (initExpState [])).irep = (initExpState []).irep
        ∧ (expStep cfgW2 expEnvWT (initExpState [])).nexpe = (initExpState []).nexpe + 1)) :=
  ⟨(runExperiments_halts cfgW2 expEnvWT).1 (expMeasure cfgW2 (initExpState []))
      (initExpState []) (Nat.le_refl _),
   (runExperiments_halts cfgW2 expEnvWT).2.1 (initExpState []) (by decide)⟩

/-- C3: when a result artifact for the current replicate index is present —
named with the canonical key, the `_n` suffix separator and a previously
recorded attempt count `c ≥ 1`, and being the last pattern match of the
directory listing — the `runExperiments` iteration takes the cache branch:
it invokes no `simulateTransfer`, loads the artifact named with the
recovered count, appends the statistics record computed from that file's
content (tagged `c + 1`), advances the replicate index, and leaves the file
store unchanged. -/
theorem runExperiments_cache_hit (cfg : ExpConfig) (env : ExpEnv) (st : ExpState)
    (l1 l2 : List (List Char)) (c : Nat) (hc : 0 < c)
    (hnames : FS.names st.fs = l1 ++ taggedName cfg st.irep c :: l2)
    (hl2 : ∀ x ∈ l2, List.isPrefixOf (expPattern cfg st.irep) x = false) :
    (expStep cfg env st).simCalls = st.simCalls
    ∧ (expStep cfg env st).irep = st.irep + 1
    ∧ (expStep cfg env st).fs = st.fs
    ∧ (expStep cfg env st).results
        = st.results
          ++ [⟨env.statsOf ((FS.get st.fs (taggedName cfg st.irep c)).getD emptyStr), c + 1⟩] := by
  have hm : List.isPrefixOf (expPattern cfg st.irep) (taggedName cfg st.irep c) = true := by
    rw [expPattern, taggedName]
    exact pattern_isPrefixOf_tagged _ c
  have hscan : scanDir (FS.names st.fs) (expPattern cfg st.irep) = c := by
    rw [hnames, scanDir_last_match _ _ l1 l2 hm hl2, taggedName]
    exact lastNum_taggedName _ c
  have hcne : c ≠ 0 := by omega
  refine ⟨?_, ?_, ?_, ?_⟩ <;> simp [expStep, hscan, hcne]

/-- Witness for C3: a concrete directory holding one cached artifact with
recorded count 5. -/
theorem runExperiments_cache_hit_witness :
    (expStep cfgA expEnvStay stCached).simCalls = stCached.simCalls
    ∧ (expStep cfgA expEnvStay stCached).irep = stCached.irep + 1
    ∧ (expStep cfgA expEnvStay stCached).fs = stCached.fs
    ∧ (expStep cfgA expEnvStay stCached).results
        = stCached.results
          ++ [⟨expEnvStay.statsOf
                ((FS.get stCached.fs (taggedName cfgA stCached.irep 5)).getD emptyStr), 5 + 1⟩] :=
  runExperiments_cache_hit cfgA expEnvStay stCached [] [] 5 (by decide) rfl
    (by intro x hx; cases hx)

/-- C4 counterexample: from a state whose directory holds a cached artifact
recorded with attempt count 5 for replicate 0, the iteration is a Success —
a record is appended and the replicate index advances to 1 — yet the
attempt counter afterwards is 6, not 0: the counter is not reset after a
cache-loaded Success. -/
theorem expStep_cache_no_reset :
    (expStep cfgA expEnvStay stCached).irep = 1
    ∧ (expStep cfgA expEnvStay stCached).results.length = 1
    ∧ (expStep cfgA expEnvStay stCached).nexpe = 6 := by
  decide

/-- C4 (amended): after a freshly simulated Success the artifact is renamed
to carry the attempt count consumed (`nexpe + 1`) and the attempt counter is
reset to 0 before the next replicate index; after a cache-loaded Success no
rename happens and the attempt counter is left at the recovered count plus
one instead of being reset. -/
theorem expStep_success_tagging (cfg : ExpConfig) (env : ExpEnv) (st : ExpState) :
    (scanDir (FS.names st.fs) (expPattern cfg st.irep) = 0 →
      0 < (simulateTransfer (env.transferEnv st.simCalls) (expTCfg cfg st.irep) st.fs).retval →
      (expStep cfg env st).nexpe = 0
        ∧ (expStep cfg env st).fs
            = FS.rename
                (simulateTransfer (env.transferEnv st.simCalls) (expTCfg cfg st.irep) st.fs).fs
                (simName (expTCfg cfg st.irep)) (taggedName cfg st.irep (st.nexpe + 1)))
    ∧ (∀ c : Nat, 0 < c → scanDir (FS.names st.fs) (expPattern cfg st.irep) = c →
      (expStep cfg env st).nexpe = c + 1 ∧ (expStep cfg env st).fs = st.fs) := by
  constructor
  · intro h0 hr
    constructor <;> simp [expStep, h0, hr]
  · intro c hc hscan
    have hcne : c ≠ 0 := by omega
    constructor <;> simp [expStep, hscan, hcne]

/-- Witness for C4's amended statement: the fresh-success branch on an
empty directory and the cache-loaded branch on a directory holding a
count-5 artifact. -/
theorem expStep_success_tagging_witness :
    ((expStep cfgA expEnvStay (initExpState [])).nexpe = 0
      ∧ (expStep cfgA expEnvStay (initExpState [])).fs
          = FS.rename
              (simulateTransfer (expEnvStay.transferEnv (initExpState []).simCalls)
                (expTCfg cfgA (initExpState []).irep) (initExpState []).fs).fs
              (simName (expTCfg cfgA (initExpState []).irep))
              (taggedName cfgA (initExpState []).irep ((initExpState []).nexpe + 1)))
    ∧ ((expStep cfgA expEnvStay stCached).nexpe = 5 + 1
      ∧ (expStep cfgA expEnvStay stCached).fs = stCached.fs) :=
  ⟨(expStep_success_tagging cfgA expEnvStay (initExpState [])).1 (by decide) (by decide),
   (expStep_success_tagging cfgA expEnvStay stCached).2 5 (by decide) (by decide)⟩

/-- C8: the log file left behind by a discarded segregant attempt is named
with the canonical key plus `.txt` and no attempt-count suffix; that name
never starts with the cache-discovery pattern (the key followed by an
underscore), and appending such a leftover to a directory listing never
changes the result of the cache scan — so a later `runExperiments` run
cannot misidentify a failed attempt's partial log as a cached result. -/
theorem segregant_leftover_never_matches (cfg : ExpConfig) (ir : Nat) :
    List.isPrefixOf (expPattern cfg ir) (simName (expTCfg cfg ir)) = false
    ∧ ∀ names : List (List Char),
        scanDir (names ++ [simName (expTCfg cfg ir)]) (expPattern cfg ir)
          = scanDir names (expPattern cfg ir) := by
  have hfalse : List.isPrefixOf (expPattern cfg ir) (simName (expTCfg cfg ir)) = false := by
    show List.isPrefixOf
        (simKey cfg.num_days cfg.num_generations cfg.mutTok cfg.max_plasmids ir ++ ['_'])
        (simKey cfg.num_days cfg.num_generations cfg.mutTok cfg.max_plasmids ir ++ chTxt)
      = false
    exact pattern_not_isPrefixOf_plain _
  refine ⟨hfalse, ?_⟩
  intro names
  simp only [scanDir, List.foldl_append, List.foldl_cons, List.foldl_nil, hfalse,
    Bool.false_eq_true, if_false]

/-- Witness for C8 at a concrete configuration and replicate index. -/
theorem segregant_leftover_never_matches_witness :
    List.isPrefixOf (expPattern cfgA 0) (simName (expTCfg cfgA 0)) = false
    ∧ ∀ names : List (List Char),
        scanDir (names ++ [simName (expTCfg cfgA 0)]) (expPattern cfgA 0)
          = scanDir names (expPattern cfgA 0) :=
  segregant_leftover_never_matches cfgA 0

/-- C9 (amended): `runExperiments` emits no explicit report when the
attempt ceiling is reached; it persists and returns the truncated
collection unchanged.  Incompleteness is detectable only from the returned
data itself: the returned collection has fewer than `num_reps` records
exactly when the loop stopped with fewer than `num_reps` successes, and in
that case the attempt counter had reached the `maxexpe` ceiling. -/
theorem runExperiments_incomplete_iff (cfg : ExpConfig) (env : ExpEnv) (fs0 : FS) :
    ((runExperiments cfg env fs0).results.length < cfg.num_reps
      ↔ (runFinalState cfg env fs0).irep < cfg.num_reps)
    ∧ ((runFinalState cfg env fs0).irep < cfg.num_reps →
      cfg.maxexpe ≤ (runFinalState cfg env fs0).nexpe) := by
  have hlen : (runFinalState cfg env fs0).results.length = (runFinalState cfg env fs0).irep :=
    expLoopFuel_len cfg env _ (initExpState fs0) rfl
  have hguard : expGuard cfg (runFinalState cfg env fs0) = false :=
    expLoopFuel_guard_false cfg env _ (initExpState fs0) (Nat.le_refl _)
  constructor
  · show (runFinalState cfg env fs0).results.length < cfg.num_reps ↔ _
    rw [hlen]
  · intro hlt
    rcases (expGuard_false_iff cfg _).mp hguard with h | h
    · omega
    · exact h

/-- Witness for C9's amended statement: a run that exhausts the ceiling
(one success out of two requested) is detected through the length of its
returned collection. -/
theorem runExperiments_incomplete_iff_witness :
    ((runExperiments cfgB expEnvOne []).results.length < cfgB.num_reps
      ↔ (runFinalState cfgB expEnvOne []).irep < cfgB.num_reps)
    ∧ cfgB.maxexpe ≤ (runFinalState cfgB expEnvOne []).nexpe :=
  ⟨(runExperiments_incomplete_iff cfgB expEnvOne []).1,
   (runExperiments_incomplete_iff cfgB expEnvOne []).2 (by decide)⟩

/-- C9 counterexample: a ceiling-exhausted, incomplete sweep (two
replicates requested, ceiling 2, only one success) produces an output —
returned list, final file store and pickle artifact — identical to that of
a completed sweep (one replicate requested) in the same environment:
nothing `runExperiments` hands to the caller reports that the ceiling was
reached. -/
theorem runExperiments_no_report :
    runExperiments cfgB expEnvOne [] = runExperiments cfgA expEnvOne []
    ∧ (runExperiments cfgB expEnvOne []).results.length < cfgB.num_reps
    ∧ cfgA.num_reps ≤ (runExperiments cfgA expEnvOne []).results.length := by
  refine ⟨by decide, by decide, by decide⟩

/-- C10: on every call, once the loop has exited, `runExperiments` writes
the per-sweep pickle artifact holding exactly the collected records and
returns that same list, unconditionally; when the loop ends with zero
successes the persisted and returned collection is empty. -/
theorem runExperiments_persists (cfg : ExpConfig) (env : ExpEnv) (fs0 : FS) :
    (runExperiments cfg env fs0).pkl
        = [(pklName cfg, (runExperiments cfg env fs0).results)]
    ∧ (runExperiments cfg env fs0).results = (runFinalState cfg env fs0).results
    ∧ ((runFinalState cfg env fs0).irep = 0 → (runExperiments cfg env fs0).results = []) := by
  refine ⟨rfl, rfl, ?_⟩
  intro h0
  have hlen : (runFinalState cfg env fs0).results.length = (runFinalState cfg env fs0).irep :=
    expLoopFuel_len cfg env _ (initExpState fs0) rfl
  have hz : (runExperiments cfg env fs0).results.length = 0 := by
    show (runFinalState cfg env fs0).results.length = 0
    omega
  exact List.length_eq_zero.mp hz

/-- Witness for C10: a run whose every attempt is discarded as wild-type
persists and returns the empty collection. -/
theorem runExperiments_persists_witness :
    (runExperiments cfgW10 expEnvWT []).results = [] :=
  (runExperiments_persists cfgW10 expEnvWT []).2.2 (by decide)

/-- Witness for C1 at a concrete run that succeeds. -/
theorem simulateTransfer_success_iff_witness :
    ((simulateTransfer envStay tcfg1 []).retval = 1 ↔
      ((∀ p ∈ transferGrownPops envStay tcfg1, p.is_segregant = false)
        ∧ envStay.isWT (transferFinalPop envStay tcfg1) = false))
    ∧ (transferFinalPop envStay tcfg1).bacteria.length = 1
    ∧ (simulateTransfer envStay tcfg1 []).retval ≤ 1 :=
  simulateTransfer_success_iff envStay tcfg1 []
